import Mathlib

/-!
Verification of the word2vec tutorial notebook (docs/notebooks/word2vec.ipynb).

The notebook's own code consists of two iterator classes (`MySentences`,
`MyText`), a data-creation cell, corpus fixtures, and a linear sequence of
calls into the gensim library.  The iterator classes and fixtures are embedded
here directly from the source; the gensim library operations that the notebook
merely invokes (Word2Vec construction, build_vocab, train, save, load) are not
present under the repository snapshot and are modelled from the specification
where a claim requires them.
-/

namespace W2VNotebook

/-- A token, as Python produces it from `str.split`: a list of characters. -/
abbrev Tok := List Char

/-- A sentence as yielded by the notebook's iterators: a list of tokens. -/
abbrev Sentence := List Tok

/-- The characters Python's argument-free `str.split` treats as whitespace
(ASCII range; the notebook's corpora are ASCII). -/
def isPyWs (c : Char) : Bool :=
  c = ' ' || c = '\t' || c = '\n' || c = '\r' || c = '\x0b' || c = '\x0c'

/-- Worker for `pySplit`: `acc` holds the characters of the token currently
being read, in reverse order.  Runs of whitespace separate tokens; leading
and trailing whitespace produce no empty tokens, exactly as Python's
`str.split()` with no arguments behaves. -/
def pySplitAux (acc : List Char) : List Char → List (List Char)
  | [] => if acc.isEmpty then [] else [acc.reverse]
  | c :: cs =>
    if isPyWs c then
      if acc.isEmpty then pySplitAux [] cs else acc.reverse :: pySplitAux [] cs
    else
      pySplitAux (c :: acc) cs

/-- Python's `line.split()`: split on runs of whitespace, discarding empty
pieces. -/
def pySplit (l : List Char) : List (List Char) :=
  pySplitAux [] l

/-- Python's `str.lower()` on the ASCII corpora used by the notebook. -/
def pyLower (l : List Char) : List Char :=
  l.map Char.toLower

/-- Worker for `pyLines`: `acc` holds the characters of the current line in
reverse order.  Each yielded line keeps its trailing newline, and a final
line without a newline is still yielded, exactly as iterating an open Python
text file does. -/
def pyLinesAux (acc : List Char) : List Char → List (List Char)
  | [] => if acc.isEmpty then [] else [acc.reverse]
  | c :: cs =>
    if c = '\n' then (acc.reverse ++ ['\n']) :: pyLinesAux [] cs
    else pyLinesAux (c :: acc) cs

/-- The sequence of lines produced by `for line in open(f)`. -/
def pyLines (l : List Char) : List (List Char) :=
  pyLinesAux [] l

/-- Errors raised by the modelled OS calls (`os.listdir`, `open`) when their
argument does not exist; nothing in the notebook catches them. -/
inductive OSError where
  | noSuchDir : String → OSError
  | noSuchFile : String → OSError
deriving DecidableEq

/-- Association-list lookup by string key. -/
def lookupStr {α : Type} : List (String × α) → String → Option α
  | [], _ => none
  | (k, v) :: rest, key => if k = key then some v else lookupStr rest key

/-- The file-system state the notebook's iterators read: `dirs` maps a
directory name to its listing (in the order `os.listdir` returns), and
`files` maps a path to the file's contents. -/
structure FileSys where
  dirs : List (String × List String)
  files : List (String × List Char)

/-- `os.listdir(d)`: the directory's listing, or `none` when `d` is absent. -/
def FileSys.listdir (fs : FileSys) (d : String) : Option (List String) :=
  lookupStr fs.dirs d

/-- `open(p)`: the file's contents, or `none` when `p` is absent. -/
def FileSys.openFile (fs : FileSys) (p : String) : Option (List Char) :=
  lookupStr fs.files p

/-- `os.path.join(d, f)` for the POSIX separator, as the notebook uses it. -/
def pathJoin (d f : String) : String :=
  if f.data.head? = some '/' then f
  else if d.data = [] then f
  else if d.data.getLast? = some '/' then d ++ f
  else d ++ "/" ++ f

/-- Map a fallible operation over a list, stopping at the first error. -/
def exceptMapList {α β : Type} (f : α → Except OSError β) :
    List α → Except OSError (List β)
  | [] => .ok []
  | a :: as =>
    match f a with
    | .error e => .error e
    | .ok b =>
      match exceptMapList f as with
      | .error e => .error e
      | .ok bs => .ok (b :: bs)

/-- Open one file and split each of its lines, as the inner loop of
`MySentences.__iter__` does (`for line in open(...): yield line.split()`). -/
def readFileSentences (fs : FileSys) (path : String) :
    Except OSError (List Sentence) :=
  match fs.openFile path with
  | none => .error (.noSuchFile path)
  | some content => .ok ((pyLines content).map pySplit)

/-- A complete iteration of `MySentences(dirname)`: list the directory, open
each listed file in order, and yield each line's whitespace tokens.  A
missing directory or file raises, uncaught. -/
def mySentencesRun (fs : FileSys) (dirname : String) :
    Except OSError (List Sentence) :=
  match fs.listdir dirname with
  | none => .error (.noSuchDir dirname)
  | some names =>
    match exceptMapList (fun f => readFileSentences fs (pathJoin dirname f)) names with
    | .error e => .error e
    | .ok perFile => .ok perFile.flatten

/-- A complete iteration of `MyText`: open the training file and yield each
line lowercased and split into whitespace tokens
(`yield line.lower().split()`). -/
def myTextRun (fs : FileSys) (leeTrainFile : String) :
    Except OSError (List Sentence) :=
  match fs.openFile leeTrainFile with
  | none => .error (.noSuchFile leeTrainFile)
  | some content => .ok ((pyLines content).map (fun l => pySplit (pyLower l)))

/-! ### The notebook's data fixtures -/

/-- The first fixture cell: `sentences = [['first', 'sentence'], ['second', 'sentence']]`. -/
def sentencesFixture : List (List String) :=
  [["first", "sentence"], ["second", "sentence"]]

/-- The data-creation cell writes each token of one fixture sentence on its
own newline-terminated line (`fout.write(line + '\n')`). -/
def tokensFileContent (tokens : List String) : List Char :=
  (tokens.map (fun t => t.data ++ ['\n'])).flatten

/-- The file system after the data-creation cell runs: `./data/` holds
`f1.txt` and `f2.txt` (listed in that order), `f1.txt` holding the tokens of
`sentences[0]` and `f2.txt` those of `sentences[1]`, one per line. -/
def dataDirFS : FileSys :=
  { dirs := [("./data/", ["f1.txt", "f2.txt"])]
    files := [("./data/f1.txt", tokensFileContent ["first", "sentence"]),
              ("./data/f2.txt", tokensFileContent ["second", "sentence"])] }

/-- The sentences `list(MySentences('./data/'))` prints in the notebook:
`[['first'], ['sentence'], ['second'], ['sentence']]`. -/
def dataSentences : List Sentence :=
  [["first".data], ["sentence".data], ["second".data], ["sentence".data]]

/-! ### Helper lemmas about the tokenizer -/

/-- A well-formed token: nonempty and free of whitespace characters. -/
def wfTok (t : Tok) : Prop :=
  t ≠ [] ∧ ∀ c ∈ t, isPyWs c = false

theorem pySplitAux_wf (l : List Char) :
    ∀ acc, (∀ c ∈ acc, isPyWs c = false) →
      ∀ t ∈ pySplitAux acc l, wfTok t := by
  induction l with
  | nil =>
    intro acc hacc t ht
    by_cases hae : acc.isEmpty
    · simp [pySplitAux, hae] at ht
    · simp [pySplitAux, hae] at ht
      subst ht
      have hne : acc ≠ [] := by intro h0; subst h0; simp at hae
      refine ⟨by simpa using hne, ?_⟩
      intro c hc
      exact hacc c (List.mem_reverse.mp hc)
  | cons c cs ih =>
    intro acc hacc t ht
    by_cases hws : isPyWs c
    · by_cases hae : acc.isEmpty
      · simp [pySplitAux, hws, hae] at ht
        exact ih [] (by intro x hx; simp at hx) t ht
      · simp [pySplitAux, hws, hae] at ht
        rcases ht with ht | ht
        · subst ht
          have hne : acc ≠ [] := by intro h0; subst h0; simp at hae
          refine ⟨by simpa using hne, ?_⟩
          intro x hx
          exact hacc x (List.mem_reverse.mp hx)
        · exact ih [] (by intro x hx; simp at hx) t ht
    · simp [pySplitAux, hws] at ht
      refine ih (c :: acc) ?_ t ht
      intro x hx
      rcases List.mem_cons.mp hx with hx | hx
      · subst hx; simpa using hws
      · exact hacc x hx

/-- Every token `pySplit` produces is nonempty and whitespace-free. -/
theorem pySplit_wf (l : List Char) : ∀ t ∈ pySplit l, wfTok t :=
  pySplitAux_wf l [] (by intro x hx; simp at hx)

/-- A line made only of whitespace splits to the empty sentence. -/
theorem pySplit_all_ws (l : List Char) (h : ∀ c ∈ l, isPyWs c = true) :
    pySplit l = [] := by
  unfold pySplit
  induction l with
  | nil => simp [pySplitAux]
  | cons c cs ih =>
    have hc : isPyWs c = true := h c (List.mem_cons_self c cs)
    simp only [pySplitAux, hc, if_pos rfl, List.isEmpty_nil]
    simp only [if_true]
    exact ih (fun x hx => h x (List.mem_cons_of_mem c hx))

/-! ### Helper lemmas about the fallible map -/

theorem exceptMapList_ok_of_forall {α β : Type} (f : α → Except OSError β)
    (g : α → β) :
    ∀ as : List α, (∀ a ∈ as, f a = .ok (g a)) →
      exceptMapList f as = .ok (as.map g) := by
  intro as
  induction as with
  | nil => intro _; rfl
  | cons a as ih =>
    intro h
    have ha : f a = .ok (g a) := h a (List.mem_cons_self a as)
    have htail := ih (fun x hx => h x (List.mem_cons_of_mem a hx))
    simp [exceptMapList, ha, htail]

theorem exceptMapList_mem_ok {α β : Type} (f : α → Except OSError β) :
    ∀ as : List α, ∀ bs : List β, exceptMapList f as = .ok bs →
      ∀ b ∈ bs, ∃ a ∈ as, f a = .ok b := by
  intro as
  induction as with
  | nil =>
    intro bs h b hb
    simp [exceptMapList] at h
    subst h
    simp at hb
  | cons a as ih =>
    intro bs h b hb
    unfold exceptMapList at h
    cases hfa : f a with
    | error e => rw [hfa] at h; exact absurd h (by simp)
    | ok b0 =>
      rw [hfa] at h
      cases hrest : exceptMapList f as with
      | error e => rw [hrest] at h; exact absurd h (by simp)
      | ok bs0 =>
        rw [hrest] at h
        have hbs : bs = b0 :: bs0 := by
          cases h; rfl
        subst hbs
        rcases List.mem_cons.mp hb with hb | hb
        · exact ⟨a, List.mem_cons_self a as, by rw [hfa, hb]⟩
        · rcases ih bs0 hrest b hb with ⟨a0, ha0, hfa0⟩
          exact ⟨a0, List.mem_cons_of_mem a ha0, hfa0⟩

/-! ### Spec-side descriptions of the iterators' output -/

/-- The spec's description of the directory iterator's output: one sentence
per line of each listed file, files in listing order, lines in file order,
each sentence being the line's whitespace-separated tokens. -/
def specDirSentences (names : List String) (content : String → List Char) :
    List Sentence :=
  (names.map (fun n => (pyLines (content n)).map pySplit)).flatten

/-- The claim's description of the single-file iterator's output: each line
split into whitespace-separated tokens, with no other transformation. -/
def specFileSentences (content : List Char) : List Sentence :=
  (pyLines content).map pySplit

/-- What `MyText` actually yields from a file's contents: each line
lowercased, then split. -/
def specFileSentencesLower (content : List Char) : List Sentence :=
  (pyLines content).map (fun l => pySplit (pyLower l))

/-- When the directory and all its listed files exist, the directory
iterator's run is exactly the spec-side description. -/
theorem mySentencesRun_eq_spec (fs : FileSys) (d : String)
    (names : List String) (content : String → List Char)
    (hls : fs.listdir d = some names)
    (hf : ∀ n ∈ names, fs.openFile (pathJoin d n) = some (content n)) :
    mySentencesRun fs d = .ok (specDirSentences names content) := by
  have hmap : exceptMapList (fun f => readFileSentences fs (pathJoin d f)) names
      = .ok (names.map (fun n => (pyLines (content n)).map pySplit)) := by
    refine exceptMapList_ok_of_forall _ _ names ?_
    intro n hn
    unfold readFileSentences
    rw [hf n hn]
  unfold mySentencesRun
  split
  · next heq => rw [hls] at heq; exact absurd heq (by simp)
  · next names2 heq =>
    rw [hls] at heq
    have hn2 : names = names2 := Option.some.inj heq
    subst hn2
    split
    · next e heq2 => rw [hmap] at heq2; exact absurd heq2 (by simp)
    · next perFile heq2 =>
      rw [hmap] at heq2
      have hp : perFile = names.map (fun n => (pyLines (content n)).map pySplit) :=
        (Except.ok.inj heq2).symm
      subst hp
      rfl

/-- When the training file exists, the single-file iterator's run is the
lowercase-then-split description of its contents. -/
theorem myTextRun_eq_lower (fs : FileSys) (p : String) (content : List Char)
    (h : fs.openFile p = some content) :
    myTextRun fs p = .ok (specFileSentencesLower content) := by
  unfold myTextRun
  split
  · next heq => rw [h] at heq; exact absurd heq (by simp)
  · next c2 heq =>
    rw [h] at heq
    have hc : c2 = content := (Option.some.inj heq).symm
    subst hc
    rfl

/-- A missing directory makes the directory iterator fail with an uncaught
error. -/
theorem mySentencesRun_missing_dir (fs : FileSys) (d : String)
    (h : fs.listdir d = none) :
    mySentencesRun fs d = .error (.noSuchDir d) := by
  unfold mySentencesRun
  split
  · rfl
  · next names heq => rw [h] at heq; exact absurd heq (by simp)

/-- A missing training file makes the single-file iterator fail with an
uncaught error. -/
theorem myTextRun_missing_file (fs : FileSys) (p : String)
    (h : fs.openFile p = none) :
    myTextRun fs p = .error (.noSuchFile p) := by
  unfold myTextRun
  split
  · rfl
  · next c heq => rw [h] at heq; exact absurd heq (by simp)

/-- Every token in every sentence an iterator run yields is well formed. -/
theorem mySentencesRun_tokens_wf (fs : FileSys) (d : String)
    (sents : List Sentence) (h : mySentencesRun fs d = .ok sents) :
    ∀ s ∈ sents, ∀ t ∈ s, wfTok t := by
  intro s hs t ht
  unfold mySentencesRun at h
  split at h
  · exact absurd h (by simp)
  · next names heq =>
    split at h
    · exact absurd h (by simp)
    · next perFile hmap =>
      have hsents : sents = perFile.flatten := (Except.ok.inj h).symm
      subst hsents
      rcases List.mem_flatten.mp hs with ⟨rs, hrs, hsrs⟩
      rcases exceptMapList_mem_ok _ names perFile hmap rs hrs with ⟨n, _, hn⟩
      unfold readFileSentences at hn
      split at hn
      · exact absurd hn (by simp)
      · next content hop =>
        have hrs2 : rs = (pyLines content).map pySplit := (Except.ok.inj hn).symm
        subst hrs2
        rcases List.mem_map.mp hsrs with ⟨line, _, hline⟩
        subst hline
        exact pySplit_wf line t ht

/-- Every token in every sentence `MyText` yields is well formed. -/
theorem myTextRun_tokens_wf (fs : FileSys) (p : String)
    (sents : List Sentence) (h : myTextRun fs p = .ok sents) :
    ∀ s ∈ sents, ∀ t ∈ s, wfTok t := by
  intro s hs t ht
  unfold myTextRun at h
  split at h
  · exact absurd h (by simp)
  · next content hop =>
    have hsents : sents = (pyLines content).map (fun l => pySplit (pyLower l)) :=
      (Except.ok.inj h).symm
    subst hsents
    rcases List.mem_map.mp hs with ⟨line, _, hline⟩
    subst hline
    exact pySplit_wf (pyLower line) t ht

/-! ### The iterator objects (for re-iterability) -/

/-- The `MySentences` object: `__init__` stores only `dirname`. -/
structure MySentences where
  dirname : String
deriving DecidableEq

/-- One complete iteration of a `MySentences` object.  `__iter__` only reads
`self.dirname` and assigns no attribute, so the object after iteration is
the object itself. -/
def MySentences.iterOnce (o : MySentences) (fs : FileSys) :
    Except OSError (List Sentence) × MySentences :=
  (mySentencesRun fs o.dirname, o)

/-- The `MyText` object: it defines no `__init__` and stores nothing; its
`__iter__` reads the global `lee_train_file`. -/
structure MyText where
  mk ::
deriving DecidableEq

/-- One complete iteration of a `MyText` object over the global training
file path; the object is left unchanged. -/
def MyText.iterOnce (o : MyText) (fs : FileSys) (leeTrainFile : String) :
    Except OSError (List Sentence) × MyText :=
  (myTextRun fs leeTrainFile, o)

/-! ### Python values, for the fixtures' shapes -/

/-- An untyped Python value, as far as the notebook's fixtures need: a
string or a list. -/
inductive PyVal where
  | str : String → PyVal
  | list : List PyVal → PyVal

/-- Is this value a string? -/
def PyVal.isStr : PyVal → Bool
  | .str _ => true
  | _ => false

/-- Is this value a tokenized sentence, i.e. a list of word strings? -/
def PyVal.isTokenList : PyVal → Bool
  | .list xs => xs.all PyVal.isStr
  | _ => false

/-- Is this value a tokenized corpus, i.e. a list of token lists? -/
def PyVal.isTokenizedCorpus : PyVal → Bool
  | .list xs => xs.all PyVal.isTokenList
  | _ => false

/-- The fixture `sentences = [['first', 'sentence'], ['second', 'sentence']]`
passed to `gensim.models.Word2Vec(sentences, min_count=1)`. -/
def sentencesFixturePy : PyVal :=
  .list [.list [.str "first", .str "sentence"],
         .list [.str "second", .str "sentence"]]

/-- The fixture `more_sentences` passed to `model.train(more_sentences)` in
the online-training cell, exactly as the cell writes it. -/
def moreSentencesPy : PyVal :=
  .list [.str "Advanced", .str "users", .str "can", .str "load", .str "a",
         .str "model", .str "and", .str "continue", .str "training",
         .str "it", .str "with", .str "more", .str "sentences"]

/-! ### The notebook's sequence of library calls -/

/-- The kinds of gensim calls a notebook cell makes on a model. -/
inductive NBEvent where
  | construct
  | buildVocab
  | trainOp
  | query
  | saveOp
  | loadOp
  | otherOp
deriving DecidableEq

/-- The notebook's code cells, top to bottom, with the model operations each
performs (several operations in one cell appear in statement order):
cell 1 imports; cell 2 constructs `Word2Vec(sentences, min_count=1)`;
cell 3 creates the data files; cell 4 defines `MySentences`; cell 5 prints
the iterator; cell 6 constructs a model; cell 7 constructs an empty model,
then `build_vocab`, then `train`; cell 8 sets paths; cell 9 defines
`MyText`; cells 10-12 construct models with various parameters; cell 13
queries `model.accuracy`; cell 14 saves then loads; cell 15 loads then
trains; cells 16-19 query `most_similar`, `doesnt_match`, `similarity`
(twice), and `model['tree']`. -/
def notebookEvents : List NBEvent :=
  [.otherOp,
   .construct,
   .otherOp,
   .otherOp,
   .otherOp,
   .construct,
   .construct, .buildVocab, .trainOp,
   .otherOp,
   .otherOp,
   .construct,
   .construct,
   .construct,
   .query,
   .saveOp, .loadOp,
   .loadOp, .trainOp,
   .query,
   .query,
   .query, .query,
   .query]

/-- Is the event a save or a load of the model? -/
def NBEvent.isSaveLoad : NBEvent → Bool
  | .saveOp => true
  | .loadOp => true
  | _ => false

/-- Is the event a query of the model? -/
def NBEvent.isQuery : NBEvent → Bool
  | .query => true
  | _ => false

/-- Is the event a construction of the model? -/
def NBEvent.isConstruct : NBEvent → Bool
  | .construct => true
  | _ => false

/-- The claim's ordering, read off an event list: after any save/load event
no query event occurs. -/
def noSaveLoadBeforeQuery : List NBEvent → Bool
  | [] => true
  | e :: rest =>
    (if e.isSaveLoad then rest.all (fun x => ! x.isQuery) else true)
      && noSaveLoadBeforeQuery rest

/-- Every query event is preceded by a construct event; `seen` records
whether a construct event has occurred yet. -/
def queriesAfterConstruct (seen : Bool) : List NBEvent → Bool
  | [] => true
  | e :: rest =>
    (if e.isQuery then seen else true)
      && queriesAfterConstruct (seen || e.isConstruct) rest

/-! ### The modelled gensim Word2Vec surface

The gensim library itself is not part of the repository snapshot (only the
notebook that calls it is), so the operations the claims need are modelled
from the specification. -/

/-- Modelled from the spec: the state the notebook observes of gensim's
`Word2Vec` model — the reported parameters (`vocab=..., size=..., alpha=...`),
the vocabulary with word frequencies, and whether the training pass has run
(plus how many words it covered).  The neural weights are a spec non-goal
and are not modelled. -/
structure Word2VecModel where
  min_count : Nat
  size : Nat
  alpha : ℚ
  vocab : List (String × Nat)
  trained : Bool
  trainCount : Nat
deriving DecidableEq

/-- Record one occurrence of word `w` in a frequency list, keeping first-seen
order. -/
def addWord (v : List (String × Nat)) (w : String) : List (String × Nat) :=
  match v with
  | [] => [(w, 1)]
  | (x, c) :: rest =>
    if x = w then (x, c + 1) :: rest else (x, c) :: addWord rest w

/-- Collect every word of the corpus with its frequency. -/
def collectCounts (sentences : List (List String)) : List (String × Nat) :=
  sentences.foldl (fun v s => s.foldl addWord v) []

/-- Modelled from the spec: the first pass — collect words and their
frequencies, keeping those occurring at least `min_count` times. -/
def buildVocabFrom (sentences : List (List String)) (mc : Nat) :
    List (String × Nat) :=
  (collectCounts sentences).filter (fun p => mc ≤ p.2)

/-- Modelled from the spec: `Word2Vec(min_count=...)` with no corpus — an
empty model, no training. -/
def word2vecEmpty (mc sz : Nat) (a : ℚ) : Word2VecModel :=
  { min_count := mc, size := sz, alpha := a, vocab := [], trained := false,
    trainCount := 0 }

/-- Modelled from the spec: `model.build_vocab(sentences)` — the first pass,
building the internal dictionary. -/
def Word2VecModel.build_vocab (m : Word2VecModel)
    (sentences : List (List String)) : Word2VecModel :=
  { m with vocab := buildVocabFrom sentences m.min_count }

/-- Modelled from the spec: `model.train(sentences)` — the second pass,
training the neural model over the corpus's words. -/
def Word2VecModel.train (m : Word2VecModel)
    (sentences : List (List String)) : Word2VecModel :=
  { m with trained := true,
           trainCount := m.trainCount + (sentences.map List.length).sum }

/-- Modelled from the spec: `gensim.models.Word2Vec(sentences, ...)` — the
one-call construction that collects frequencies and then trains. -/
def word2vec (sentences : List (List String)) (mc sz : Nat) (a : ℚ) :
    Word2VecModel :=
  { min_count := mc, size := sz, alpha := a,
    vocab := buildVocabFrom sentences mc, trained := true,
    trainCount := (sentences.map List.length).sum }

/-- The corpus the notebook's cell 6/7 models are built from:
`list(MySentences('./data/'))`, as strings. -/
def dataCorpus : List (List String) :=
  [["first"], ["sentence"], ["second"], ["sentence"]]

/-! ### The modelled save/load mechanism -/

/-- A token of the serialized model stream. -/
inductive SerTok where
  | n : Nat → SerTok
  | q : ℚ → SerTok
  | s : String → SerTok
  | b : Bool → SerTok
deriving DecidableEq

/-- Serialize the vocabulary as alternating word/count tokens. -/
def encodeVocab : List (String × Nat) → List SerTok
  | [] => []
  | (w, c) :: rest => .s w :: .n c :: encodeVocab rest

/-- Modelled from the spec: `model.save(path)` — serialize the whole model
state to the file. -/
def Word2VecModel.save (m : Word2VecModel) : List SerTok :=
  .n m.min_count :: .n m.size :: .q m.alpha :: .b m.trained ::
    .n m.trainCount :: .n m.vocab.length :: encodeVocab m.vocab

/-- Parse `k` word/count pairs from the stream, returning them with the
unconsumed remainder. -/
def decodeVocab : Nat → List SerTok → Option (List (String × Nat) × List SerTok)
  | 0, ts => some ([], ts)
  | k + 1, .s w :: .n c :: ts =>
    match decodeVocab k ts with
    | some (v, rest) => some ((w, c) :: v, rest)
    | none => none
  | _ + 1, _ => none

/-- Modelled from the spec: `gensim.models.Word2Vec.load(path)` — parse a
saved model back, failing on a malformed file. -/
def word2vecLoad (ts : List SerTok) : Option Word2VecModel :=
  match ts with
  | .n mc :: .n sz :: .q a :: .b tr :: .n tc :: .n k :: rest =>
    match decodeVocab k rest with
    | some (v, []) => some ⟨mc, sz, a, v, tr, tc⟩
    | _ => none
  | _ => none

theorem decodeVocab_encode (v : List (String × Nat)) (ts : List SerTok) :
    decodeVocab v.length (encodeVocab v ++ ts) = some (v, ts) := by
  induction v with
  | nil => rfl
  | cons p rest ih =>
    cases p with
    | mk w c => simp [encodeVocab, decodeVocab, ih]

theorem word2vecLoad_save (m : Word2VecModel) :
    word2vecLoad m.save = some m := by
  cases m with
  | mk mc sz a v tr tc =>
    have h := decodeVocab_encode v []
    rw [List.append_nil] at h
    simp [word2vecLoad, Word2VecModel.save, h]

/-! ### Further concrete fixtures used by the claim theorems -/

/-- The contents of the two data files, as the data-creation cell writes
them, keyed by listed file name. -/
def dataContent : String → List Char :=
  fun n => if n = "f1.txt" then tokensFileContent ["first", "sentence"]
           else tokensFileContent ["second", "sentence"]

/-- A file system whose training file holds one line with capitalized
words. -/
def leeFS : FileSys :=
  { dirs := [], files := [("lee_background.cor", "First Sentence\n".data)] }

/-- A file system with no directories and no files. -/
def emptyFS : FileSys :=
  { dirs := [], files := [] }

/-! ### Claim theorems -/

/-- C1: iterating `MySentences(d)` yields exactly one sentence per line of
each file listed in `d` (files in directory-listing order, lines in file
order), each sentence being the line's whitespace-separated tokens, with no
transformation beyond open, split, yield. -/
theorem mySentences_yields_split_lines (fs : FileSys) (d : String)
    (names : List String) (content : String → List Char)
    (hls : fs.listdir d = some names)
    (hf : ∀ n ∈ names, fs.openFile (pathJoin d n) = some (content n)) :
    mySentencesRun fs d = .ok (specDirSentences names content) :=
  mySentencesRun_eq_spec fs d names content hls hf

/-- Witness for C1 on the notebook's own `./data/` directory. -/
theorem mySentences_yields_split_lines_check :
    mySentencesRun dataDirFS "./data/" =
      .ok (specDirSentences ["f1.txt", "f2.txt"] dataContent) :=
  mySentences_yields_split_lines dataDirFS "./data/" ["f1.txt", "f2.txt"]
    dataContent (by rfl) (by decide)

/-- C2 counterexample: `MyText` does not yield each line's tokens verbatim —
on the line `First Sentence` it yields the lowercased tokens, because
`__iter__` runs `line.lower().split()`, not `line.split()`. -/
theorem myText_not_plain_split :
    myTextRun leeFS "lee_background.cor" =
      .ok [["first".data, "sentence".data]] ∧
    specFileSentences "First Sentence\n".data =
      [["First".data, "Sentence".data]] ∧
    ([["first".data, "sentence".data]] : List Sentence) ≠
      [["First".data, "Sentence".data]] :=
  ⟨by rfl, by rfl, by decide⟩

/-- C2 (amended): for every line of the training file, `MyText` yields that
line lowercased and then split into whitespace-separated tokens; apart from
the lowercasing it applies no further transformation. -/
theorem myText_lower_split (fs : FileSys) (p : String) (content : List Char)
    (h : fs.openFile p = some content) :
    myTextRun fs p = .ok (specFileSentencesLower content) :=
  myTextRun_eq_lower fs p content h

/-- Witness for the amended C2. -/
theorem myText_lower_split_check :
    myTextRun leeFS "lee_background.cor" =
      .ok (specFileSentencesLower "First Sentence\n".data) :=
  myText_lower_split leeFS "lee_background.cor" "First Sentence\n".data
    (by rfl)

/-- C3: the one-call construction `Word2Vec(sentences, min_count=1)` equals
the explicit two-step construction (empty model, `build_vocab`, `train`);
on the notebook's fixture corpus both yield a three-word vocabulary with
the reported `size=100` and `alpha=0.025`. -/
theorem word2vec_two_pass_equiv :
    (∀ (sentences : List (List String)) (mc sz : Nat) (a : ℚ),
       word2vec sentences mc sz a =
         ((word2vecEmpty mc sz a).build_vocab sentences).train sentences) ∧
    (word2vec dataCorpus 1 100 0.025).vocab.length = 3 ∧
    (word2vec dataCorpus 1 100 0.025).size = 100 ∧
    (word2vec dataCorpus 1 100 0.025).alpha = 0.025 ∧
    (((word2vecEmpty 1 100 0.025).build_vocab dataCorpus).train
        dataCorpus).vocab.length = 3 := by
  refine ⟨?_, by decide, rfl, rfl, by decide⟩
  intro s mc sz a
  simp [word2vec, word2vecEmpty, Word2VecModel.build_vocab,
    Word2VecModel.train]

/-- C4: the first fixture is a list of token lists, but `more_sentences`,
passed to `model.train` in the online-training cell, is a flat list of word
strings — it is not a tokenized corpus, contradicting the notebook's own
statement that each sentence must be a list of words. -/
theorem more_sentences_not_token_lists :
    PyVal.isTokenizedCorpus sentencesFixturePy = true ∧
    PyVal.isTokenizedCorpus moreSentencesPy = false :=
  ⟨rfl, rfl⟩

/-- C5: a missing directory makes a `MySentences` iteration fail with an
uncaught listing error, and a missing training file makes a `MyText`
iteration fail with an uncaught open error; the error is the run's final
outcome — nothing recovers from it. -/
theorem iterators_propagate_missing_errors :
    (∀ fs d, FileSys.listdir fs d = none →
       mySentencesRun fs d = .error (.noSuchDir d)) ∧
    (∀ fs p, FileSys.openFile fs p = none →
       myTextRun fs p = .error (.noSuchFile p)) :=
  ⟨mySentencesRun_missing_dir, myTextRun_missing_file⟩

/-- Witness for C5 on an empty file system. -/
theorem iterators_propagate_missing_errors_check :
    mySentencesRun emptyFS "./data/" = .error (.noSuchDir "./data/") ∧
    myTextRun emptyFS "lee_background.cor" =
      .error (.noSuchFile "lee_background.cor") :=
  ⟨iterators_propagate_missing_errors.1 emptyFS "./data/" rfl,
   iterators_propagate_missing_errors.2 emptyFS "lee_background.cor" rfl⟩

/-- C6 counterexample: the notebook is not ordered construct → query →
save/load — the save at cell 14 (event 15) precedes the `most_similar`
query at cell 16 (event 19), so a save/load call does precede a query
call. -/
theorem saveload_precedes_later_queries :
    notebookEvents.getD 15 .otherOp = .saveOp ∧
    notebookEvents.getD 19 .otherOp = .query ∧
    noSaveLoadBeforeQuery notebookEvents = false := by
  decide

/-- C6 (amended): executed top to bottom, no query call precedes the
model's construction, and the first save/load call comes only after the
first query call; queries do recur after save/load. -/
theorem notebook_call_order :
    queriesAfterConstruct false notebookEvents = true ∧
    notebookEvents.findIdx NBEvent.isQuery <
      notebookEvents.findIdx NBEvent.isSaveLoad := by
  decide

/-- C7: saving a model and loading it back is a round-trip — the loaded
model equals the saved one — and the loaded model supports continuing
training with further sentences exactly as the original does. -/
theorem save_load_roundtrip :
    ∀ m : Word2VecModel,
      word2vecLoad m.save = some m ∧
      ∀ more : List (List String),
        (word2vecLoad m.save).map (fun m2 => m2.train more) =
          some (m.train more) := by
  intro m
  refine ⟨word2vecLoad_save m, ?_⟩
  intro more
  rw [word2vecLoad_save m]
  rfl

/-- C8: with the data files as the data-creation cell writes them (each
fixture token on its own newline-terminated line of `f1.txt`/`f2.txt`) and
the listing returning `f1.txt` before `f2.txt`, `list(MySentences('./data/'))`
is `[['first'], ['sentence'], ['second'], ['sentence']]`; every yielded
sentence is a singleton and the yielded tokens concatenate to the original
fixture's tokens. -/
theorem data_fixture_roundtrip :
    mySentencesRun dataDirFS "./data/" = .ok dataSentences ∧
    dataSentences.all (fun s => s.length == 1) = true ∧
    dataSentences.flatten = sentencesFixture.flatten.map String.data :=
  ⟨by rfl, by rfl, by rfl⟩

/-- C9: every token of every sentence either iterator yields is nonempty
and whitespace-free; a line that is empty or all whitespace still yields
the empty sentence (`pySplit` maps it to `[]`, and `MyText` yields exactly
one sentence per line, skipping none). -/
theorem yielded_tokens_wellformed :
    (∀ fs d sents, mySentencesRun fs d = .ok sents →
       ∀ s ∈ sents, ∀ t ∈ s, wfTok t) ∧
    (∀ fs p sents, myTextRun fs p = .ok sents →
       ∀ s ∈ sents, ∀ t ∈ s, wfTok t) ∧
    (∀ line : List Char, (∀ c ∈ line, isPyWs c = true) →
       pySplit line = []) ∧
    (∀ fs p content sents, FileSys.openFile fs p = some content →
       myTextRun fs p = .ok sents →
       sents.length = (pyLines content).length) := by
  refine ⟨mySentencesRun_tokens_wf, myTextRun_tokens_wf, pySplit_all_ws, ?_⟩
  intro fs p content sents hopen hrun
  rw [myTextRun_eq_lower fs p content hopen] at hrun
  have hs : specFileSentencesLower content = sents := Except.ok.inj hrun
  rw [← hs]
  simp [specFileSentencesLower]

/-- Witness for C9 on the notebook's data directory and a whitespace-only
line. -/
theorem yielded_tokens_wellformed_check :
    wfTok "first".data ∧ pySplit [' ', '\t'] = [] :=
  ⟨yielded_tokens_wellformed.1 dataDirFS "./data/" dataSentences (by rfl)
      ["first".data] (by decide) "first".data (by decide),
   yielded_tokens_wellformed.2.2.1 [' ', '\t'] (by decide)⟩

/-- C10: with the file system held fixed, two complete iterations of the
same `MySentences` or `MyText` object yield identical sentence sequences,
and iteration leaves the object (including `MySentences.dirname`)
unchanged. -/
theorem iterators_reiterable :
    ∀ (fs : FileSys) (o : MySentences) (mt : MyText) (p : String),
      (o.iterOnce fs).2 = o ∧
      ((o.iterOnce fs).2.iterOnce fs).1 = (o.iterOnce fs).1 ∧
      (o.iterOnce fs).2.dirname = o.dirname ∧
      (mt.iterOnce fs p).2 = mt ∧
      ((mt.iterOnce fs p).2.iterOnce fs p).1 = (mt.iterOnce fs p).1 :=
  fun _ _ _ _ => ⟨rfl, rfl, rfl, rfl, rfl⟩

end W2VNotebook

